import Mathlib

/-!
Shallow embedding of the Linguist Corpus history store (`src/App.tsx`,
`src/types.ts`): the data model (`CorpusEntry`, `CorpusCard`), the history
mutations (prepend on successful analyze, delete-by-id, import merge), the
persistence behaviour (load on mount, save-on-change effect), the export and
file-merge adapters, and the credential initialization.  JavaScript string
truthiness is modelled as non-emptiness; `crypto.randomUUID()` freshness is a
hypothesis on the prepend step; browser JSON parsing is modelled by the
abstract parse results the code branches on.
-/

namespace Corpus

/-- `ParaphraseCategory` from `src/types.ts`. -/
structure ParaphraseCategory where
  category : String
  words : List String
deriving DecidableEq

/-- `CorpusEntry` from `src/types.ts`: the structured analysis returned by the
generation service. -/
structure CorpusEntry where
  term : String
  meaning : String
  paraphrases : List ParaphraseCategory
  localization_memo : List String
  examples : List String
  tags : List String
deriving DecidableEq

/-- `CorpusCard` from `src/types.ts`: a `CorpusEntry` plus local identity
(`id`) and creation timestamp, flattened as in the TS `extends`. -/
structure CorpusCard where
  term : String
  meaning : String
  paraphrases : List ParaphraseCategory
  localization_memo : List String
  examples : List String
  tags : List String
  id : String
  createdAt : Nat
deriving DecidableEq

/-- The ids of the cards currently in History (`cards.map(c => c.id)`,
`App.tsx:118`). -/
def historyIds (cards : List CorpusCard) : List String :=
  cards.map (fun c => c.id)

/-- Building the new card in `handleAnalyze` (`App.tsx:63`): spread the entry,
add `id` and `createdAt`. -/
def mkCard (e : CorpusEntry) (newId : String) (now : Nat) : CorpusCard :=
  ⟨e.term, e.meaning, e.paraphrases, e.localization_memo, e.examples, e.tags,
   newId, now⟩

/-- The import filter of `handleImportFile` (`App.tsx:119`):
`c.term && c.meaning && !existingIds.has(c.id)`, with JS string truthiness
(non-empty) and `Set.has` membership against the pre-merge History. -/
def acceptCand (cards : List CorpusCard) (c : CorpusCard) : Bool :=
  (!(c.term == "")) && (!(c.meaning == "")) && (!((historyIds cards).contains c.id))

/-- The merge of `handleImportFile` (`App.tsx:116`-`126`): keep the candidates
passing `acceptCand`, prepend them as a block (`[...newCards, ...prev]`), and
report the number of accepted candidates (`newCards.length`).  When no card is
accepted the state setter is skipped, which coincides with prepending the
empty block. -/
def mergeImport (cands : List CorpusCard) (cards : List CorpusCard) :
    List CorpusCard × Nat :=
  let newCards := cands.filter (acceptCand cards)
  (newCards ++ cards, newCards.length)

/-- The deletion applied by `handleDelete` once confirmed (`App.tsx:85`):
`prev.filter(c => c.id !== id)`. -/
def removeCard (cards : List CorpusCard) (id : String) : List CorpusCard :=
  cards.filter (fun c => !(c.id == id))

/-- `handleDelete` (`App.tsx:83`-`87`): the filter runs only when the user
confirms; the confirmation is a presentation-layer input. -/
def handleDelete (confirmed : Bool) (cards : List CorpusCard) (id : String) :
    List CorpusCard :=
  if confirmed then removeCard cards id else cards

/-- Top-level JSON value of an uploaded file, as far as `handleImportFile`
inspects it (`Array.isArray`, `App.tsx:116`): an array of candidate records,
or some non-array value. -/
inductive Json where
  | arr (elems : List CorpusCard)
  | nonArray
deriving DecidableEq

/-- `handleImportFile` (`App.tsx:108`-`135`) after the file is read: the
argument is the result of `JSON.parse` (`none` = parse threw).  Returns the
new History and whether the failure alert (`App.tsx:129`) was shown.  A parse
failure hits the `catch` and alerts; a parsed non-array value falls through
the `if (Array.isArray(...))` with no alert and no mutation. -/
def handleImportFile (parsed : Option Json) (cards : List CorpusCard) :
    List CorpusCard × Bool :=
  match parsed with
  | none => (cards, true)
  | some (Json.arr elems) => ((mergeImport elems cards).1, false)
  | some Json.nonArray => (cards, false)

/-- `handleExport` (`App.tsx:90`-`100`): serializes the full History as a JSON
array; modelled at the JSON-value level (pretty-printing then re-parsing the
array yields the array back). -/
def exportHistory (cards : List CorpusCard) : Json :=
  Json.arr cards

/-- Result of one `handleAnalyze` call: whether the outbound request was
issued, whether the missing-credential error was surfaced, and the resulting
History. -/
structure AnalyzeResult where
  requestIssued : Bool
  credentialError : Bool
  cards : List CorpusCard
deriving DecidableEq

/-- `handleAnalyze` (`App.tsx:52`-`81`): with an empty credential it surfaces
the credential error and returns before any request (`App.tsx:53`-`57`);
otherwise it calls the generation service with the term (`svc` models
`generateCorpusEntry`, `none` = the call threw) and on success prepends the
new card (`App.tsx:69`); on failure the History is untouched. -/
def handleAnalyze (apiKey term : String) (svc : String → Option CorpusEntry)
    (newId : String) (now : Nat) (cards : List CorpusCard) : AnalyzeResult :=
  if apiKey = "" then ⟨false, true, cards⟩
  else
    match svc term with
    | some entry => ⟨true, false, mkCard entry newId now :: cards⟩
    | none => ⟨true, false, cards⟩

/-- `handleSaveApiKey` (`App.tsx:43`-`50`): returns the new in-memory key and
the new persisted credential value; an empty key removes the stored credential
instead of storing the empty string. -/
def handleSaveApiKey (key : String) : String × Option String :=
  (key, if key = "" then none else some key)

/-- JavaScript `a || b` on the string/null operands of the credential
initializer: a missing (`none`) or empty value is falsy. -/
def jsOr (a : Option String) (b : String) : String :=
  match a with
  | none => b
  | some s => if s = "" then b else s

/-- The `apiKey` state initializer (`App.tsx:18`-`20`):
`localStorage.getItem(API_KEY_STORAGE_KEY) || process.env.API_KEY || ''`,
associating to the left as in JavaScript. -/
def initApiKey (stored env : Option String) : String :=
  jsOr (some (jsOr stored (jsOr env ""))) ""

/-- The history-loading effect (`App.tsx:26`-`35`): `cards` starts empty; a
stored string is parsed inside `try`, and on a parse throw the error is logged
and the state is left empty.  `parseResult` models `JSON.parse` on the stored
string (`none` = throw); the returned flag is whether `console.error` ran. -/
def loadHistory (saved : Option String)
    (parseResult : String → Option (List CorpusCard)) :
    List CorpusCard × Bool :=
  match saved with
  | none => ([], false)
  | some s =>
    match parseResult s with
    | some cs => (cs, false)
    | none => ([], true)

/-- Session state for the persistence model: the in-memory `cards` state and
the (parsed) content stored under `STORAGE_KEY`. -/
structure AppState where
  cards : List CorpusCard
  storage : List CorpusCard
deriving DecidableEq

/-- Events of a session: the three History mutations, and the save effect
(`App.tsx:38`-`40`) that React runs after the mutating handler has returned. -/
inductive AppEvent where
  | analyzeOk (c : CorpusCard)
  | deleteCard (id : String)
  | importData (parsed : Option Json)
  | flushEffect
deriving DecidableEq

/-- One step of the session: mutations update only the in-memory state; the
deferred effect writes `JSON.stringify(cards)` to storage. -/
def stepApp (s : AppState) (e : AppEvent) : AppState :=
  match e with
  | AppEvent.analyzeOk c => ⟨c :: s.cards, s.storage⟩
  | AppEvent.deleteCard id => ⟨removeCard s.cards id, s.storage⟩
  | AppEvent.importData p => ⟨(handleImportFile p s.cards).1, s.storage⟩
  | AppEvent.flushEffect => ⟨s.cards, s.cards⟩

/-- A session run: fold the events over the state. -/
def runApp (s : AppState) (es : List AppEvent) : AppState :=
  es.foldl stepApp s

/-- Histories reachable from the empty History by the three mutations.
The prepend step carries the freshness of `crypto.randomUUID()` as a
hypothesis; the import step is the unrestricted merge of the code. -/
inductive Reachable : List CorpusCard → Prop where
  | empty : Reachable []
  | analyze (cards : List CorpusCard) (e : CorpusEntry) (newId : String)
      (now : Nat) (h : Reachable cards) (hfresh : newId ∉ historyIds cards) :
      Reachable (mkCard e newId now :: cards)
  | delete (cards : List CorpusCard) (id : String) (h : Reachable cards) :
      Reachable (removeCard cards id)
  | importMerge (cards cands : List CorpusCard) (h : Reachable cards) :
      Reachable (mergeImport cands cards).1

/-- Reachability when additionally every import batch carries pairwise
distinct candidate ids. -/
inductive ReachableND : List CorpusCard → Prop where
  | empty : ReachableND []
  | analyze (cards : List CorpusCard) (e : CorpusEntry) (newId : String)
      (now : Nat) (h : ReachableND cards) (hfresh : newId ∉ historyIds cards) :
      ReachableND (mkCard e newId now :: cards)
  | delete (cards : List CorpusCard) (id : String) (h : ReachableND cards) :
      ReachableND (removeCard cards id)
  | importMerge (cards cands : List CorpusCard) (h : ReachableND cards)
      (hnd : (cands.map (fun c => c.id)).Nodup) :
      ReachableND (mergeImport cands cards).1

/-- A sample candidate card with non-empty `term` and `meaning`. -/
def c0 : CorpusCard :=
  ⟨"说服", "persuade", [], [], [], [], "id-0", 0⟩

/-- A second sample card, distinct id. -/
def c1 : CorpusCard :=
  ⟨"贿赂", "bribe", [], [], [], [], "id-1", 1⟩

/-- The acceptance predicate of the import merge, stated from the spec's
words: non-empty `term` and `meaning`, and an `id` not already present in
History (spec 4.2 `mergeImport`). -/
def specAccepted (cards cands : List CorpusCard) : List CorpusCard :=
  cands.filter (fun c =>
    decide (c.term ≠ "" ∧ c.meaning ≠ "" ∧ c.id ∉ historyIds cards))

theorem acceptCand_iff (cards : List CorpusCard) (c : CorpusCard) :
    acceptCand cards c = true ↔
      c.term ≠ "" ∧ c.meaning ≠ "" ∧ c.id ∉ historyIds cards := by
  simp [acceptCand, and_assoc]

theorem acceptCand_eq_decide (cards : List CorpusCard) (c : CorpusCard) :
    acceptCand cards c =
      decide (c.term ≠ "" ∧ c.meaning ≠ "" ∧ c.id ∉ historyIds cards) := by
  rw [Bool.eq_iff_iff, acceptCand_iff]
  simp

theorem removeCard_sublist (cards : List CorpusCard) (id : String) :
    (removeCard cards id).Sublist cards :=
  List.filter_sublist cards

/-- C2: the import merge accepts exactly the candidates with non-empty `term`
and `meaning` whose `id` is not already in History, prepends them as one block
before the old History while keeping their input order (the accepted list is a
sublist of the candidate list), and reports the accepted count. -/
theorem c2_merge_accepts_exactly (cards cands : List CorpusCard) :
    (mergeImport cands cards).1 = specAccepted cards cands ++ cards ∧
    (mergeImport cands cards).2 = (specAccepted cards cands).length ∧
    (specAccepted cards cands).Sublist cands := by
  have hf : cands.filter (acceptCand cards) = specAccepted cards cands :=
    List.filter_congr (fun c _ => acceptCand_eq_decide cards c)
  exact ⟨by simp [mergeImport, hf], by simp [mergeImport, hf],
    List.filter_sublist cands⟩

/-- C3 counterexample: on an uploaded file whose top-level JSON value parses
but is not a sequence, the code surfaces no failure (the alert of the `catch`
branch never runs), contradicting the claim that such input fails with
`ImportFormatError`; the History is merely left unchanged. -/
theorem c3_counterexample :
    (handleImportFile (some Json.nonArray) [c0]).2 ≠ true ∧
    (handleImportFile (some Json.nonArray) [c0]).1 = [c0] :=
  ⟨by decide, rfl⟩

/-- C3 amended: the import fails (error surfaced, History untouched) exactly
when the bytes are unparsable as JSON; a parsable top-level value that is not
a sequence is silently ignored — no error is surfaced and the History is
also unchanged. -/
theorem c3_amended (cards : List CorpusCard) :
    handleImportFile none cards = (cards, true) ∧
    handleImportFile (some Json.nonArray) cards = (cards, false) :=
  ⟨rfl, rfl⟩

/-- C7: with an empty credential — in particular right after the credential
was removed via `handleSaveApiKey ""` — analyze surfaces the credential error,
issues no outbound request, and leaves the History unchanged, for every term
and every behaviour of the generation service. -/
theorem c7_empty_credential (term : String) (svc : String → Option CorpusEntry)
    (newId : String) (now : Nat) (cards : List CorpusCard) :
    handleAnalyze "" term svc newId now cards =
      ⟨false, true, cards⟩ ∧
    handleAnalyze (handleSaveApiKey "").1 term svc newId now cards =
      ⟨false, true, cards⟩ := by
  constructor <;> simp [handleAnalyze, handleSaveApiKey]

/-- C8: when a history value is stored but `JSON.parse` throws on it, the load
effect returns the empty History (it does not propagate the throw) and logs
the condition. -/
theorem c8_malformed_load (s : String)
    (parseResult : String → Option (List CorpusCard))
    (h : parseResult s = none) :
    loadHistory (some s) parseResult = ([], true) := by
  simp [loadHistory, h]

/-- C8 witness: a present but malformed stored value loads as the empty
History with the condition logged. -/
theorem c8_malformed_load_witness :
    loadHistory (some "not-json") (fun _ => none) = ([], true) :=
  c8_malformed_load "not-json" (fun _ => none) rfl

/-- C9: `remove` deletes exactly the cards bearing the requested id — a no-op
when no card has that id, a strict shrink when one does — and the surviving
cards are precisely those with a different id, kept in their original relative
order (the result is a sublist of the input). -/
theorem c9_remove_spec (cards : List CorpusCard) (id : String) :
    (id ∉ historyIds cards → removeCard cards id = cards) ∧
    (removeCard cards id).Sublist cards ∧
    (∀ c ∈ removeCard cards id, c.id ≠ id) ∧
    (∀ c ∈ cards, c.id ≠ id → c ∈ removeCard cards id) ∧
    (id ∈ historyIds cards → (removeCard cards id).length < cards.length) := by
  refine ⟨?_, removeCard_sublist cards id, ?_, ?_, ?_⟩
  · intro h
    apply List.filter_eq_self.mpr
    intro c hc
    simp only [Bool.not_eq_true', beq_eq_false_iff_ne]
    intro he
    exact h (he ▸ List.mem_map_of_mem (fun c => c.id) hc)
  · intro c hc
    have := (List.mem_filter.mp hc).2
    simpa using this
  · intro c hc hne
    exact List.mem_filter.mpr ⟨hc, by simp [hne]⟩
  · intro h
    obtain ⟨c, hc, he⟩ := List.mem_map.mp h
    exact List.length_filter_lt_length_iff_exists.mpr ⟨c, hc, by simp [he]⟩

/-- C9 witness: removing an absent id is a no-op; removing a present id
strictly shrinks the History. -/
theorem c9_remove_spec_witness :
    (removeCard [c0] "zzz" = [c0]) ∧
    ((removeCard [c0, c1] "id-0").length < ([c0, c1] : List CorpusCard).length) :=
  ⟨(c9_remove_spec [c0] "zzz").1 (by decide),
   (c9_remove_spec [c0, c1] "id-0").2.2.2.2 (by decide)⟩

theorem historyIds_append (a b : List CorpusCard) :
    historyIds (a ++ b) = historyIds a ++ historyIds b := by
  simp [historyIds]

theorem mergeImport_fst (cands cards : List CorpusCard) :
    (mergeImport cands cards).1 = cands.filter (acceptCand cards) ++ cards :=
  rfl

theorem mergeImport_snd (cands cards : List CorpusCard) :
    (mergeImport cands cards).2 = (cands.filter (acceptCand cards)).length :=
  rfl

/-- C1 counterexample: the import merge deduplicates only against the
pre-merge History, not within the uploaded batch, so importing a file that
contains the same card twice into the empty History yields a reachable
History with a duplicated id. -/
theorem c1_counterexample :
    Reachable [c0, c0] ∧ ¬ (historyIds [c0, c0]).Nodup := by
  constructor
  · have h := Reachable.importMerge [] [c0, c0] Reachable.empty
    have he : (mergeImport [c0, c0] []).1 = [c0, c0] := by decide
    rw [he] at h
    exact h
  · decide

/-- C1 amended: every History reachable from empty by prepend (with fresh
generated ids), remove, and import merge has pairwise distinct card ids,
provided additionally that no import batch carries two candidates with the
same id. -/
theorem c1_amended_no_dup_ids (cards : List CorpusCard)
    (h : ReachableND cards) : (historyIds cards).Nodup := by
  induction h with
  | empty => simp [historyIds]
  | analyze cards e newId now h hfresh ih =>
    exact List.nodup_cons.mpr ⟨hfresh, ih⟩
  | delete cards id h ih =>
    simp only [historyIds] at ih ⊢
    exact ih.sublist ((removeCard_sublist cards id).map (fun c => c.id))
  | importMerge cards cands h hnd ih =>
    rw [mergeImport_fst, historyIds_append]
    apply List.Nodup.append
    · simp only [historyIds]
      exact hnd.sublist ((List.filter_sublist cands).map (fun c => c.id))
    · exact ih
    · intro a ha hb
      obtain ⟨c, hc, rfl⟩ := List.mem_map.mp ha
      exact ((acceptCand_iff cards c).mp (List.mem_filter.mp hc).2).2.2 hb

/-- C1 amended witness: a two-card History built by two import merges with
duplicate-free batches satisfies the invariant. -/
theorem c1_amended_no_dup_ids_witness : (historyIds [c1, c0]).Nodup := by
  have h0 := ReachableND.importMerge [] [c0] ReachableND.empty (by decide)
  have e0 : (mergeImport [c0] []).1 = [c0] := by decide
  rw [e0] at h0
  have h1 := ReachableND.importMerge [c0] [c1] h0 (by decide)
  have e1 : (mergeImport [c1] [c0]).1 = [c1, c0] := by decide
  rw [e1] at h1
  exact c1_amended_no_dup_ids [c1, c0] h1

/-- C4: exporting a History whose cards all have non-empty `term` and
`meaning` and merging the parsed export into the empty History reproduces the
History exactly — same cards, same order. -/
theorem c4_roundtrip (H : List CorpusCard)
    (h : ∀ c ∈ H, c.term ≠ "" ∧ c.meaning ≠ "") :
    (handleImportFile (some (exportHistory H)) []).1 = H := by
  have hf : H.filter (acceptCand []) = H := by
    apply List.filter_eq_self.mpr
    intro c hc
    exact (acceptCand_iff [] c).mpr ⟨(h c hc).1, (h c hc).2, by simp [historyIds]⟩
  simp [handleImportFile, exportHistory, mergeImport_fst, hf]

/-- C4 witness: the export of a concrete two-card History round-trips
through the importer into the empty History. -/
theorem c4_roundtrip_witness :
    (∀ c ∈ ([c0, c1] : List CorpusCard), c.term ≠ "" ∧ c.meaning ≠ "") ∧
    (handleImportFile (some (exportHistory [c0, c1])) []).1 = [c0, c1] :=
  ⟨by decide, c4_roundtrip [c0, c1] (by decide)⟩

/-- C5: the import merge is idempotent — merging the same candidate list into
the result of a first merge changes nothing and accepts zero candidates. -/
theorem c5_merge_idempotent (H cands : List CorpusCard) :
    (mergeImport cands (mergeImport cands H).1).1 = (mergeImport cands H).1 ∧
    (mergeImport cands (mergeImport cands H).1).2 = 0 := by
  have hall : ∀ c ∈ cands, acceptCand (mergeImport cands H).1 c = false := by
    intro c hc
    rw [Bool.eq_false_iff]
    intro htrue
    obtain ⟨ht, hm, hid⟩ := (acceptCand_iff _ c).mp htrue
    rw [mergeImport_fst, historyIds_append] at hid
    by_cases hacc : acceptCand H c = true
    · exact hid (List.mem_append.mpr (Or.inl
        (List.mem_map_of_mem (fun c => c.id) (List.mem_filter.mpr ⟨hc, hacc⟩))))
    · have hnp : ¬ (c.term ≠ "" ∧ c.meaning ≠ "" ∧ c.id ∉ historyIds H) :=
        fun hp => hacc ((acceptCand_iff H c).mpr hp)
      push_neg at hnp
      exact hid (List.mem_append.mpr (Or.inr (hnp ht hm)))
  have hfe : cands.filter (acceptCand (mergeImport cands H).1) = [] :=
    List.filter_eq_nil_iff.mpr (fun c hcm => by simp [hall c hcm])
  constructor
  · rw [mergeImport_fst, hfe]
    rfl
  · rw [mergeImport_snd, hfe]
    rfl

/-- C6 counterexample: when the analyze handler prepends the new card and
returns, the storage still holds the pre-mutation serialization — the
persistence write is deferred to the effect and has not completed when the
triggering call returns. -/
theorem c6_counterexample :
    (stepApp ⟨[], []⟩ (AppEvent.analyzeOk c0)).storage ≠
      (stepApp ⟨[], []⟩ (AppEvent.analyzeOk c0)).cards := by
  decide

/-- C6 amended: a mutation updates only the in-memory History and leaves the
stored value untouched; the stored value equals the serialization of the
in-memory History once the deferred save effect has run — any event sequence
ending with the effect leaves storage and History in agreement. -/
theorem c6_deferred_persistence (s : AppState) (es : List AppEvent)
    (e : AppEvent) :
    (e ≠ AppEvent.flushEffect → (stepApp s e).storage = s.storage) ∧
    (runApp s (es ++ [AppEvent.flushEffect])).storage =
      (runApp s (es ++ [AppEvent.flushEffect])).cards := by
  constructor
  · intro he
    cases e with
    | analyzeOk c => rfl
    | deleteCard id => rfl
    | importData p => rfl
    | flushEffect => exact absurd rfl he
  · simp [runApp, List.foldl_append, stepApp]

/-- C6 amended witness: a concrete delete leaves storage untouched, and a
concrete run ending with the save effect leaves storage equal to the in-memory
History. -/
theorem c6_deferred_persistence_witness :
    (stepApp (AppState.mk [] []) (AppEvent.deleteCard "id-0")).storage =
      (AppState.mk [] []).storage ∧
    (runApp (AppState.mk [] [])
        ([AppEvent.analyzeOk c0] ++ [AppEvent.flushEffect])).storage =
      (runApp (AppState.mk [] [])
        ([AppEvent.analyzeOk c0] ++ [AppEvent.flushEffect])).cards :=
  ⟨(c6_deferred_persistence ⟨[], []⟩ [AppEvent.analyzeOk c0]
      (AppEvent.deleteCard "id-0")).1 (by decide),
   (c6_deferred_persistence ⟨[], []⟩ [AppEvent.analyzeOk c0]
      (AppEvent.deleteCard "id-0")).2⟩

/-- C10: with no stored credential the in-memory credential initializes to the
environment variable when set and to the empty string otherwise, and a
non-empty environment value makes analyze pass the credential check and issue
the request. -/
theorem c10_env_fallback (env : Option String) (term : String)
    (svc : String → Option CorpusEntry) (newId : String) (now : Nat)
    (cards : List CorpusCard) :
    initApiKey none env = env.getD "" ∧
    (env.getD "" ≠ "" →
      (handleAnalyze (initApiKey none env) term svc newId now
          cards).credentialError = false ∧
      (handleAnalyze (initApiKey none env) term svc newId now
          cards).requestIssued = true) := by
  have hinit : initApiKey none env = env.getD "" := by
    cases env with
    | none => rfl
    | some s =>
      by_cases hs : s = ""
      · simp [initApiKey, jsOr, hs]
      · simp [initApiKey, jsOr, hs]
  refine ⟨hinit, fun hne => ?_⟩
  rw [hinit]
  cases hsvc : svc term <;> simp [handleAnalyze, hne, hsvc]

/-- C10 witness: with no stored credential and the environment variable set to
a non-empty value, the initializer adopts it and analyze proceeds. -/
theorem c10_env_fallback_witness :
    ((some "k7" : Option String).getD "" ≠ "") ∧
    initApiKey none (some "k7") = (some "k7" : Option String).getD "" ∧
    (handleAnalyze (initApiKey none (some "k7")) "甚至" (fun _ => none) "id-9" 0
        []).credentialError = false ∧
    (handleAnalyze (initApiKey none (some "k7")) "甚至" (fun _ => none) "id-9" 0
        []).requestIssued = true :=
  ⟨by decide,
   (c10_env_fallback (some "k7") "甚至" (fun _ => none) "id-9" 0 []).1,
   ((c10_env_fallback (some "k7") "甚至" (fun _ => none) "id-9" 0 []).2
      (by decide)).1,
   ((c10_env_fallback (some "k7") "甚至" (fun _ => none) "id-9" 0 []).2
      (by decide)).2⟩

end Corpus
